import Mathlib

set_option linter.unusedVariables false

/-!
Verification development for the nanobot agent runtime.

The embedding follows the Python sources:
  * `nanobot/agent/tools/base.py`      — capability contract and parameter validator
  * `nanobot/agent/tools/registry.py`  — tool registry and uniform error containment
  * `nanobot/agent/loop.py`            — the bounded tool-calling agent loop
  * `nanobot/agent/subagent.py`        — subagent manager (spawn / announce lifecycle)

Records that live in modules treated as external collaborators by the design
document (message events, session store, model provider) are modelled from the
design document's interface description and are marked as such.
-/

/- ===================== JSON-like values (tool parameters) ===================== -/

mutual
/-- JSON-like Python values, the values handled by `Tool._validate` in
`nanobot/agent/tools/base.py`. Python `float` values are modelled with integer
contents (no claim depends on fractional arithmetic); `bool` is kept separate
because Python treats `bool` as a subclass of `int`, which the embedding
reproduces in `isinstanceOf` and `numVal`. -/
inductive JVal where
  | str (s : String)
  | int (n : Int)
  | float (n : Int)
  | bool (b : Bool)
  | arr (items : JArr)
  | obj (fields : JObj)

/-- A Python list of `JVal` values. -/
inductive JArr where
  | nil
  | cons (head : JVal) (tail : JArr)

/-- A Python dict with string keys, as an insertion-ordered key/value list. -/
inductive JObj where
  | nil
  | cons (key : String) (value : JVal) (tail : JObj)
end

/-- Elements of a `JArr`, as a Lean list. -/
def JArr.toList : JArr → List JVal
  | .nil => []
  | .cons x t => x :: t.toList

/-- Entries of a `JObj`, as a Lean list. -/
def JObj.toList : JObj → List (String × JVal)
  | .nil => []
  | .cons k v t => (k, v) :: t.toList

/-- Python `key in dict`. -/
def JObj.hasKey : JObj → String → Bool
  | .nil, _ => false
  | .cons k _ t, key => k == key || t.hasKey key

/-- Python `dict.get(key)`: the first binding of `key`. -/
def JObj.lookup : JObj → String → Option JVal
  | .nil, _ => none
  | .cons k v t, key => if k == key then some v else t.lookup key

/-- Python `len(dict)` (keys are assumed unique, as in a Python dict). -/
def JObj.length : JObj → Nat
  | .nil => 0
  | .cons _ _ t => t.length + 1

/- ===================== The schema dialect of `Tool._validate` ===================== -/

/-- The restricted JSON-Schema dialect read by `Tool._validate`
(`base.py`): the keys `type`, `enum`, `minimum`, `maximum`, `minLength`,
`maxLength`, `properties`, `required`, `items`. An absent key is `none`
(`properties` and `required` default to empty, matching
`schema.get("properties", {})` and `schema.get("required", [])`). Numeric
bounds are modelled as integers. -/
inductive JSchema where
  | mk (type : Option String) (enum : Option (List JVal))
       (minimum maximum : Option Int) (minLength maxLength : Option Nat)
       (properties : List (String × JSchema)) (required : List String)
       (items : Option JSchema)

/-- The `type` key of a schema. -/
def JSchema.type : JSchema → Option String
  | .mk t _ _ _ _ _ _ _ _ => t

/-- The `enum` key of a schema. -/
def JSchema.enum : JSchema → Option (List JVal)
  | .mk _ e _ _ _ _ _ _ _ => e

/-- The `minimum` key of a schema. -/
def JSchema.minimum : JSchema → Option Int
  | .mk _ _ mi _ _ _ _ _ _ => mi

/-- The `maximum` key of a schema. -/
def JSchema.maximum : JSchema → Option Int
  | .mk _ _ _ ma _ _ _ _ _ => ma

/-- The `minLength` key of a schema. -/
def JSchema.minLength : JSchema → Option Nat
  | .mk _ _ _ _ ml _ _ _ _ => ml

/-- The `maxLength` key of a schema. -/
def JSchema.maxLength : JSchema → Option Nat
  | .mk _ _ _ _ _ ml _ _ _ => ml

/-- The `properties` key of a schema. -/
def JSchema.properties : JSchema → List (String × JSchema)
  | .mk _ _ _ _ _ _ p _ _ => p

/-- The `required` key of a schema. -/
def JSchema.required : JSchema → List String
  | .mk _ _ _ _ _ _ _ r _ => r

/-- The `items` key of a schema. -/
def JSchema.items : JSchema → Option JSchema
  | .mk _ _ _ _ _ _ _ _ i => i

/-- Python `{**schema, "type": t}`: the schema with its `type` key replaced. -/
def JSchema.setType : JSchema → String → JSchema
  | .mk _ e mi ma mil mal p r i, t => .mk (some t) e mi ma mil mal p r i

/- ===================== Python-semantics helpers ===================== -/

/-- Numeric content of a value, reflecting that Python's `bool` is an `int`
(`True == 1`, `False == 0`); `none` for non-numeric values. -/
def numVal : JVal → Option Int
  | .int n => some n
  | .float n => some n
  | .bool b => some (if b then 1 else 0)
  | _ => none

/-- Membership test for `Tool._TYPE_MAP` (`base.py`): the schema types the
validator knows how to check. -/
def typeInMap (t : String) : Bool :=
  t == "string" || t == "integer" || t == "number" || t == "boolean" ||
  t == "array" || t == "object"

/-- Python `isinstance(val, _TYPE_MAP[t])` for the six supported schema types.
Per Python's type hierarchy a `bool` is accepted for `"integer"` and
`"number"`. -/
def isinstanceOf (val : JVal) (t : String) : Bool :=
  match val with
  | .str _ => t == "string"
  | .int _ => t == "integer" || t == "number"
  | .float _ => t == "number"
  | .bool _ => t == "boolean" || t == "integer" || t == "number"
  | .arr _ => t == "array"
  | .obj _ => t == "object"

mutual
/-- Python `==` on JSON-like values: numbers (including `bool`) compare by
numeric value (`1 == 1.0 == True`), strings by content, lists pointwise.
Dict comparison is modelled pointwise in insertion order (Python dicts compare
order-insensitively; no claim depends on the difference). -/
def pyEq : JVal → JVal → Bool
  | .str a, .str b => a == b
  | .arr a, .arr b => pyEqArr a b
  | .obj a, .obj b => pyEqObj a b
  | a, b =>
    match numVal a, numVal b with
    | some x, some y => x == y
    | _, _ => false

/-- Python `==` on lists: equal lengths and pointwise equal elements. -/
def pyEqArr : JArr → JArr → Bool
  | .nil, .nil => true
  | .cons x xs, .cons y ys => pyEq x y && pyEqArr xs ys
  | _, _ => false

/-- Pointwise dict comparison (see `pyEq`). -/
def pyEqObj : JObj → JObj → Bool
  | .nil, .nil => true
  | .cons k v t, .cons k' v' t' => k == k' && pyEq v v' && pyEqObj t t'
  | _, _ => false
end

mutual
/-- Python `repr` of a JSON-like value, as interpolated into the validator's
`enum` error message (`f"... must be one of {schema['enum']}"`). Floats are
printed from their modelled integer content. -/
def reprPy : JVal → String
  | .str s => "'" ++ s ++ "'"
  | .int n => toString n
  | .float n => toString n
  | .bool b => if b then "True" else "False"
  | .arr xs => "[" ++ reprPyArr xs ++ "]"
  | .obj fs => "\x7b" ++ reprPyObj fs ++ "\x7d"

/-- Comma-separated `repr` of list elements. -/
def reprPyArr : JArr → String
  | .nil => ""
  | .cons x .nil => reprPy x
  | .cons x rest => reprPy x ++ ", " ++ reprPyArr rest

/-- Comma-separated `repr` of dict entries. -/
def reprPyObj : JObj → String
  | .nil => ""
  | .cons k v .nil => "'" ++ k ++ "': " ++ reprPy v
  | .cons k v rest => "'" ++ k ++ "': " ++ reprPy v ++ ", " ++ reprPyObj rest
end

/-- Python `repr` of a Lean-level list of values (the `enum` list). -/
def reprPyList (es : List JVal) : String :=
  "[" ++ String.intercalate ", " (es.map reprPy) ++ "]"

/-- The child path `path + '.' + k if path else k` used by `_validate` when
recursing into an object property. -/
def childPath (path k : String) : String :=
  if path = "" then k else path ++ "." ++ k

/-- The index path `f"{path}[{i}]" if path else f"[{i}]"` used by `_validate`
when recursing into an array item. -/
def indexPath (path : String) (i : Nat) : String :=
  if path = "" then "[" ++ toString i ++ "]" else path ++ "[" ++ toString i ++ "]"

/-- The `missing required ...` errors produced by `_validate`'s loop over
`schema.get("required", [])`, in the loop's order. -/
def requiredErrors (fields : JObj) (required : List String) (path : String) : List String :=
  required.filterMap fun k =>
    if fields.hasKey k then none else some ("missing required " ++ childPath path k)

/- ===================== `Tool._validate` (base.py) ===================== -/

mutual
/-- `Tool._validate(val, schema, path)` from `base.py`: a type mismatch
returns a single error immediately for this value; otherwise enum, numeric
bound, string length, object (required keys plus declared properties) and
array (items) errors are accumulated in the source's order. -/
def validate (val : JVal) (schema : JSchema) (path : String) : List String :=
  let t := schema.type
  let label := if path = "" then "parameter" else path
  if (match t with
      | some ts => typeInMap ts && !(isinstanceOf val ts)
      | none => false) then
    [label ++ " should be " ++ t.getD ""]
  else
    (match schema.enum with
     | some es => if es.any (pyEq val) then [] else [label ++ " must be one of " ++ reprPyList es]
     | none => [])
    ++
    (if t = some "integer" ∨ t = some "number" then
      match numVal val with
      | some x =>
        (match schema.minimum with
         | some m => if x < m then [label ++ " must be >= " ++ toString m] else []
         | none => [])
        ++
        (match schema.maximum with
         | some m => if x > m then [label ++ " must be <= " ++ toString m] else []
         | none => [])
      | none => []
     else [])
    ++
    (if t = some "string" then
      match val with
      | .str s =>
        (match schema.minLength with
         | some n => if s.length < n then [label ++ " must be at least " ++ toString n ++ " chars"] else []
         | none => [])
        ++
        (match schema.maxLength with
         | some n => if s.length > n then [label ++ " must be at most " ++ toString n ++ " chars"] else []
         | none => [])
      | _ => []
     else [])
    ++
    (if t = some "object" then
      match val with
      | .obj fields => requiredErrors fields schema.required path ++ validateEntries fields schema.properties path
      | _ => []
     else [])
    ++
    (if t = some "array" then
      match schema.items with
      | some its =>
        (match val with
         | .arr xs => validateItems xs its path 0
         | _ => [])
      | none => []
     else [])

/-- The loop `for k, v in val.items(): if k in props: errors.extend(...)` of
`_validate`'s object case: entries in dict order, undeclared keys skipped. -/
def validateEntries (fields : JObj) (props : List (String × JSchema)) (path : String) : List String :=
  match fields with
  | .nil => []
  | .cons k v rest =>
    (match props.lookup k with
     | some s => validate v s (childPath path k)
     | none => [])
    ++ validateEntries rest props path

/-- The loop `for i, item in enumerate(val): errors.extend(...)` of
`_validate`'s array case. -/
def validateItems (xs : JArr) (its : JSchema) (path : String) (i : Nat) : List String :=
  match xs with
  | .nil => []
  | .cons x rest => validate x its (indexPath path i) ++ validateItems rest its path (i + 1)
end

/- ===================== Capability contract and Tool registry ===================== -/

/-- A capability (`Tool` in `base.py`): an immutable descriptor plus an
asynchronous `execute(**params) -> str` operation. A raised exception is
modelled as `Except.error` carrying `str(e)`. -/
structure Tool where
  name : String
  description : String
  parameters : JSchema
  execute : JObj → Except String String

/-- `Tool.validate_params` (`base.py`): raises `ValueError` (modelled as
`Except.error`) unless the root schema type is `"object"` or absent, then
recursively validates against `{**schema, "type": "object"}`. The Python
`schema = self.parameters or {}` is the identity here because an absent or
empty schema is already the all-defaults `JSchema`. -/
def Tool.validate_params (tool : Tool) (params : JObj) : Except String (List String) :=
  let schema := tool.parameters
  if schema.type.getD "object" ≠ "object" then
    .error ("Schema must be object type, got " ++
      (match schema.type with
       | some t => "'" ++ t ++ "'"
       | none => "None"))
  else
    .ok (validate (.obj params) (schema.setType "object") "")

/-- `ToolRegistry` (`registry.py`): the `_tools` dict as a name-keyed
association list. -/
structure ToolRegistry where
  tools : List (String × Tool)

/-- `ToolRegistry.register`: insert or overwrite the binding for the tool's
name (last registration under a name wins). -/
def ToolRegistry.register : ToolRegistry → Tool → ToolRegistry
  | ⟨[]⟩, t => ⟨[(t.name, t)]⟩
  | ⟨(n, t') :: rest⟩, t =>
    if n = t.name then ⟨(n, t) :: rest⟩
    else ⟨(n, t') :: (ToolRegistry.register ⟨rest⟩ t).tools⟩

/-- `ToolRegistry.execute(name, params)` (`registry.py`): unknown name gives an
error string; the `try` block covers both parameter validation (whose
`ValueError` is caught) and the capability call (whose exceptions are caught);
a non-empty validation error list gives a single concatenated error string and
the capability is not called. Every branch returns a string. -/
def ToolRegistry.execute (reg : ToolRegistry) (name : String) (params : JObj) : String :=
  match reg.tools.lookup name with
  | none => "Error: Tool '" ++ name ++ "' not found"
  | some tool =>
    match tool.validate_params params with
    | .error e => "Error executing " ++ name ++ ": " ++ e
    | .ok errors =>
      if errors.isEmpty then
        match tool.execute params with
        | .ok result => result
        | .error e => "Error executing " ++ name ++ ": " ++ e
      else
        "Error: Invalid parameters for tool '" ++ name ++ "': " ++
          String.intercalate "; " errors

/- ===================== Messages, model interface, history turns ===================== -/

/-- Modelled from the spec: `InboundMessage` (§3), the immutable record
`{channel, sender_id, chat_id, content, media}` (its module is not under
`src/`; only its consumers are). `metadata` is omitted — no claim reads it. -/
structure InboundMessage where
  channel : String
  sender_id : String
  chat_id : String
  content : String
  media : List String := []

/-- Modelled from the spec: the session key `"channel:chat_id"` of an inbound
message (§3: sessions are keyed per `channel:chat_id`). -/
def InboundMessage.session_key (m : InboundMessage) : String :=
  m.channel ++ ":" ++ m.chat_id

/-- Modelled from the spec: `OutboundMessage` (§3), `{channel, chat_id, content}`. -/
structure OutboundMessage where
  channel : String
  chat_id : String
  content : String
deriving DecidableEq

/-- A model-reported tool call `{id, name, arguments}` (spec §6, produced by
the provider's `chat`). -/
structure ToolCall where
  id : String
  name : String
  arguments : JObj

/-- Modelled from the spec: the provider response `{content, tool_calls}`
(§6); the provider module is not under `src/`. `content` is a string (claims
do not depend on a null content). -/
structure ModelResponse where
  content : String
  tool_calls : List ToolCall

/-- Modelled from the spec: `has_tool_calls` is whether `tool_calls` is
non-empty (§6). -/
def ModelResponse.has_tool_calls (r : ModelResponse) : Bool :=
  !r.tool_calls.isEmpty

/-- The wire-format payload `{"name": ..., "arguments": json.dumps(...)}`
inside an assistant turn's `tool_calls` entry. -/
structure FunctionDict where
  name : String
  arguments : String
deriving DecidableEq

/-- The wire-format entry `{"id", "type": "function", "function": {...}}`
built by `_process_message` for the assistant turn. -/
structure ToolCallDict where
  id : String
  type : String
  function : FunctionDict
deriving DecidableEq

mutual
/-- Python `json.dumps` on JSON-like values (string escaping elided; no claim
inspects the serialized text). -/
def dumpJVal : JVal → String
  | .str s => "\"" ++ s ++ "\""
  | .int n => toString n
  | .float n => toString n
  | .bool b => if b then "true" else "false"
  | .arr xs => "[" ++ dumpJArr xs ++ "]"
  | .obj fs => "\x7b" ++ dumpJObj fs ++ "\x7d"

/-- Serialized list elements, comma-separated. -/
def dumpJArr : JArr → String
  | .nil => ""
  | .cons x .nil => dumpJVal x
  | .cons x rest => dumpJVal x ++ ", " ++ dumpJArr rest

/-- Serialized dict entries, comma-separated. -/
def dumpJObj : JObj → String
  | .nil => ""
  | .cons k v .nil => "\"" ++ k ++ "\": " ++ dumpJVal v
  | .cons k v rest => "\"" ++ k ++ "\": " ++ dumpJVal v ++ ", " ++ dumpJObj rest
end

/-- The `tool_call_dicts` list built by `_process_message` (`loop.py`) and
`_run_subagent` (`subagent.py`): one wire-format entry per tool call, in the
model's order. -/
def toolCallDicts (tcs : List ToolCall) : List ToolCallDict :=
  tcs.map fun tc => ⟨tc.id, "function", ⟨tc.name, dumpJVal (.obj tc.arguments)⟩⟩

/-- One turn of the running message list. Optional dict keys are modelled as
fields with empty defaults (`tool_calls` for assistant turns; `tool_call_id`
and `name` for tool turns). -/
structure Msg where
  role : String
  content : String
  tool_calls : List ToolCallDict := []
  tool_call_id : String := ""
  name : String := ""
deriving DecidableEq

/-- `ContextBuilder.add_assistant_message` (`context.py`): append an assistant
turn with `content or ""` and the tool-call payload (for a `String` content
the `or ""` is the identity). -/
def addAssistantMsg (messages : List Msg) (content : String) (tcs : List ToolCallDict) : List Msg :=
  messages ++ [{ role := "assistant", content := content, tool_calls := tcs }]

/-- `ContextBuilder.add_tool_result` (`context.py`): append one tool turn. -/
def addToolResultMsg (messages : List Msg) (tool_call_id name content : String) : List Msg :=
  messages ++ [{ role := "tool", content := content, tool_call_id := tool_call_id, name := name }]

/-- The `for tool_call in response.tool_calls` loop of `_process_message`:
execute each call through the registry and append its tool-result turn, in the
model's order, sequentially. -/
def execAllToolCalls (reg : ToolRegistry) (messages : List Msg) (tcs : List ToolCall) : List Msg :=
  tcs.foldl (fun ms tc => addToolResultMsg ms tc.id tc.name (reg.execute tc.name tc.arguments)) messages

/-- `ContextBuilder.build_messages` (`context.py`) on the no-media path: the
system prompt (whose text comes from workspace files, an external collaborator
— here a parameter), the session history, then the current user turn. -/
def buildMessages (sysPrompt : String) (history : List Msg) (current : String) : List Msg :=
  { role := "system", content := sysPrompt } :: (history ++ [{ role := "user", content := current }])

/- ===================== The agent loop (`loop.py`) ===================== -/

/-- The `while iteration < self.max_iterations` loop of
`AgentLoop._process_message` / `_process_system_message`. The provider is the
sequence of model responses, indexed by the zero-based call number; the model
is an opaque external capability (spec §6), so the claims quantify over all
such sequences. Arguments: the call counter (`iteration`), the remaining
budget (`max_iterations - iteration`), and the running message list. Returns
the final message list, `some content` if a tool-call-free response ended the
loop (`final_content`), and the number of model calls made. -/
def agentLoopGo (provider : Nat → ModelResponse) (reg : ToolRegistry) (iteration : Nat) :
    Nat → List Msg → List Msg × Option String × Nat
  | 0, messages => (messages, none, iteration)
  | remaining + 1, messages =>
    let response := provider iteration
    if response.has_tool_calls then
      agentLoopGo provider reg (iteration + 1) remaining
        (execAllToolCalls reg
          (addAssistantMsg messages response.content (toolCallDicts response.tool_calls))
          response.tool_calls)
    else
      (messages, some response.content, iteration + 1)

/-- Modelled from the spec: the session store (§6, external collaborator) as
a map from session key to the ordered `(role, content)` turn log. -/
abbrev Sessions := List (String × List (String × String))

/-- Modelled from the spec: `SessionManager.get_or_create` — the stored log,
or a fresh empty one. -/
def getOrCreate (sessions : Sessions) (key : String) : List (String × String) :=
  (sessions.lookup key).getD []

/-- Modelled from the spec: `SessionManager.save` — store the log under its
key (insert or overwrite). -/
def saveSession (sessions : Sessions) (key : String) (log : List (String × String)) : Sessions :=
  if sessions.lookup key = none then sessions ++ [(key, log)]
  else sessions.map fun kv => if kv.1 = key then (key, log) else kv

/-- Modelled from the spec: `Session.get_history` (§6) — the stored turns as
role/content entries of the message list. -/
def historyMsgs (log : List (String × String)) : List Msg :=
  log.map fun rc => { role := rc.1, content := rc.2 }

/-- Python `chat_id.split(":", 1)` guarded by `":" in chat_id`
(`_process_system_message`): `some (before, after)` splits at the first colon,
`none` if there is no colon. -/
def breakAtColon : List Char → Option (List Char × List Char)
  | [] => none
  | c :: rest =>
    if c = ':' then some ([], rest)
    else
      match breakAtColon rest with
      | some (a, b) => some (c :: a, b)
      | none => none

/-- The origin-parsing step of `_process_system_message` (`loop.py`): split
`chat_id` at the first colon into `(origin_channel, origin_chat_id)`; with no
colon present, fall back to channel `"cli"` with the message's own `chat_id`. -/
def parseOrigin (chat_id : String) : String × String :=
  match breakAtColon chat_id.toList with
  | some (a, b) => (String.mk a, String.mk b)
  | none => ("cli", chat_id)

/-- The configuration of one `AgentLoop` (`loop.py` constructor): the provider
and registry, `max_iterations` (default 20), and the context builder's system
prompt (external collaborator, abstracted as the string it produces). -/
structure AgentConfig where
  provider : Nat → ModelResponse
  tools : ToolRegistry
  max_iterations : Nat := 20
  sysPrompt : String

/-- `AgentLoop._process_system_message` (`loop.py`): parse the origin pair
from `chat_id`, use the session keyed by the origin pair, run the loop, fall
back to `"Background task completed."` on budget exhaustion, append the turns
(with the `[System: sender]` prefix on the user turn) to the origin session,
and address the outbound message to the origin pair. Returns the updated
session store, the outbound message, and the number of model calls made.
Tool-context mutation and logging are side effects on external collaborators
and are not modelled. -/
def processSystemMessage (cfg : AgentConfig) (sessions : Sessions) (msg : InboundMessage) :
    Sessions × OutboundMessage × Nat :=
  let origin := parseOrigin msg.chat_id
  let session_key := origin.1 ++ ":" ++ origin.2
  let session := getOrCreate sessions session_key
  let messages := buildMessages cfg.sysPrompt (historyMsgs session) msg.content
  let r := agentLoopGo cfg.provider cfg.tools 0 cfg.max_iterations messages
  let final_content := r.2.1.getD "Background task completed."
  let session2 := session ++
    [("user", "[System: " ++ msg.sender_id ++ "] " ++ msg.content), ("assistant", final_content)]
  (saveSession sessions session_key session2, ⟨origin.1, origin.2, final_content⟩, r.2.2)

/-- `AgentLoop._process_message` (`loop.py`): `"system"` messages are
redirected to `processSystemMessage`; otherwise run the loop on the message's
own session, fall back to
`"I've completed processing but have no response to give."` on budget
exhaustion, persist the user and assistant turns, and address the outbound
message to the message's own channel and chat id. The third component is the
number of model calls made (the loop's final `iteration`). -/
def processMessage (cfg : AgentConfig) (sessions : Sessions) (msg : InboundMessage) :
    Sessions × OutboundMessage × Nat :=
  if msg.channel = "system" then
    processSystemMessage cfg sessions msg
  else
    let session := getOrCreate sessions msg.session_key
    let messages := buildMessages cfg.sysPrompt (historyMsgs session) msg.content
    let r := agentLoopGo cfg.provider cfg.tools 0 cfg.max_iterations messages
    let final_content := r.2.1.getD "I've completed processing but have no response to give."
    let session2 := session ++ [("user", msg.content), ("assistant", final_content)]
    (saveSession sessions msg.session_key session2, ⟨msg.channel, msg.chat_id, final_content⟩, r.2.2)

/- ===================== Subagent manager (`subagent.py`) ===================== -/

/-- The subagent iteration cap hardcoded in `SubagentManager._run_subagent`
(`max_iterations = 15`). -/
def subagentMaxIterations : Nat := 15

/-- The default `max_iterations` of the main `AgentLoop` constructor
(`loop.py`). -/
def mainLoopDefaultMaxIterations : Nat := 20

/-- The display label of `SubagentManager.spawn`:
`label or task[:30] + ("..." if len(task) > 30 else "")`, where a `None` or
empty label is falsy. -/
def displayLabel (label : Option String) (task : String) : String :=
  let truncated := task.take 30 ++ (if task.length > 30 then "..." else "")
  match label with
  | some l => if l = "" then truncated else l
  | none => truncated

/-- `SubagentManager._build_subagent_prompt` (`subagent.py`). -/
def buildSubagentPrompt (task workspace : String) : String :=
  "# Subagent\n\nYou are a subagent spawned by the main agent to complete a specific task.\n\n## Your Task\n"
  ++ task ++
  "\n\n## Rules\n1. Stay focused - complete only the assigned task, nothing else\n2. Your final response will be reported back to the main agent\n3. Do not initiate conversations or take on side tasks\n4. Be concise but informative in your findings\n\n## What You Can Do\n- Read and write files in the workspace\n- Execute shell commands\n- Search the web and fetch web pages\n- Complete the task thoroughly\n\n## What You Cannot Do\n- Send messages directly to users (no message tool available)\n- Spawn other subagents\n- Access the main agent's conversation history\n\n## Workspace\nYour workspace is at: "
  ++ workspace ++
  "\n\nWhen you have completed the task, provide a clear summary of your findings or actions."

/-- The `while iteration < max_iterations` loop of
`SubagentManager._run_subagent`. The subagent's provider may raise (spec §6:
provider failure propagates and becomes a failure announcement), modelled as
an `Except`-valued response sequence; a raised call aborts the loop with the
exception. -/
def subagentLoopGo (provider : Nat → Except String ModelResponse) (reg : ToolRegistry)
    (iteration : Nat) : Nat → List Msg → Except String (List Msg × Option String × Nat)
  | 0, messages => .ok (messages, none, iteration)
  | remaining + 1, messages =>
    match provider iteration with
    | .error e => .error e
    | .ok response =>
      if response.has_tool_calls then
        subagentLoopGo provider reg (iteration + 1) remaining
          (execAllToolCalls reg
            (addAssistantMsg messages response.content (toolCallDicts response.tool_calls))
            response.tool_calls)
      else
        .ok (messages, some response.content, iteration + 1)

/-- `SubagentManager._announce_result` (`subagent.py`): the synthetic inbound
message published on the bus — channel `"system"`, sender `"subagent"`,
`chat_id = "{origin.channel}:{origin.chat_id}"`, and the instructing body. -/
def announceResult (task_id label task result : String) (origin : String × String)
    (status : String) : InboundMessage :=
  let status_text := if status = "ok" then "completed successfully" else "failed"
  { channel := "system"
    sender_id := "subagent"
    chat_id := origin.1 ++ ":" ++ origin.2
    content :=
      "[Subagent '" ++ label ++ "' " ++ status_text ++ "]\n\nTask: " ++ task ++
      "\n\nResult:\n" ++ result ++
      "\n\nSummarize this naturally for the user. Keep it brief (1-2 sentences). Do not mention technical details like \"subagent\" or task IDs." }

/-- `SubagentManager._run_subagent` (`subagent.py`): run the restricted loop
(the restricted registry — no message/spawn tool — is built from external tool
implementations and is a parameter here) for at most 15 iterations; on budget
exhaustion substitute
`"Task completed but no final response was generated."`; any exception is
caught and announced with an `Error: ...` body and status `"error"`. The
result is the list of messages published on the bus. -/
def runSubagent (provider : Nat → Except String ModelResponse) (reg : ToolRegistry)
    (task_id task label : String) (origin : String × String) (workspace : String) :
    List InboundMessage :=
  let messages : List Msg :=
    [{ role := "system", content := buildSubagentPrompt task workspace },
     { role := "user", content := task }]
  match subagentLoopGo provider reg 0 subagentMaxIterations messages with
  | .ok r =>
    [announceResult task_id label task
      (r.2.1.getD "Task completed but no final response was generated.") origin "ok"]
  | .error e =>
    [announceResult task_id label task ("Error: " ++ e) origin "error"]

/-- `SubagentManager.spawn` (`subagent.py`): build the display label, start
the background task, and return the acknowledgement string at once. The first
component is the returned string; the second is what the background task
eventually publishes on the bus (`spawn` itself never waits for it). -/
def spawn (provider : Nat → Except String ModelResponse) (reg : ToolRegistry)
    (task : String) (label : Option String) (origin : String × String)
    (task_id workspace : String) : String × List InboundMessage :=
  let display_label := displayLabel label task
  let published := runSubagent provider reg task_id task display_label origin workspace
  ("Subagent [" ++ display_label ++ "] started (id: " ++ task_id ++
     "). I'll notify you when it completes.", published)

/- ===================== Subagent task registry lifecycle ===================== -/

/-- The ways a spawned background task can finish: the subagent loop returned,
the loop raised, or even the completion announcement itself raised. The done
callback installed by `spawn` receives the finished task and ignores it
(`lambda _: self._running_tasks.pop(task_id, None)`), so removal cannot depend
on this outcome. -/
inductive SubagentOutcome where
  | succeeded
  | raised (exc : String)
  | announceRaised (exc : String)
deriving DecidableEq

/-- `self._running_tasks[task_id] = bg_task` in `spawn`: register the new task
id in the live-task dict (task ids are fresh uuid prefixes). -/
def registerTask (running : List String) (task_id : String) : List String :=
  running ++ [task_id]

/-- The done callback `lambda _: self._running_tasks.pop(task_id, None)`
installed by `spawn`: remove the task id, ignoring the task's outcome; a
missing key is a no-op (`pop(…, None)`). -/
def doneCallback (running : List String) (task_id : String)
    (outcome : SubagentOutcome) : List String :=
  running.erase task_id

/-- `SubagentManager.get_running_count`: `len(self._running_tasks)`. -/
def get_running_count (running : List String) : Nat :=
  running.length

/- ===================== Schema satisfaction (formalizing C7's hypothesis) ===================== -/

/-- The enum condition of schema satisfaction: if the schema declares an
`enum`, the value is one of its members. -/
def EnumOk (val : JVal) (schema : JSchema) : Prop :=
  ∀ es, schema.enum = some es → val ∈ es

/-- A parameter value satisfies a capability's schema (the design document's
restricted JSON-Schema dialect, §3): the declared `type` matches, the value is
in a declared `enum`, numeric bounds and string length bounds hold, objects
carry every `required` key and their declared properties conform recursively,
and array items conform to `items`. -/
inductive Conforms : JVal → JSchema → Prop where
  | str : ∀ (s : String) (schema : JSchema),
      (schema.type = none ∨ schema.type = some "string") →
      EnumOk (.str s) schema →
      (∀ n, schema.minLength = some n → n ≤ s.length) →
      (∀ n, schema.maxLength = some n → s.length ≤ n) →
      Conforms (.str s) schema
  | int : ∀ (n : Int) (schema : JSchema),
      (schema.type = none ∨ schema.type = some "integer" ∨ schema.type = some "number") →
      EnumOk (.int n) schema →
      (∀ m, schema.minimum = some m → m ≤ n) →
      (∀ m, schema.maximum = some m → n ≤ m) →
      Conforms (.int n) schema
  | float : ∀ (n : Int) (schema : JSchema),
      (schema.type = none ∨ schema.type = some "number") →
      EnumOk (.float n) schema →
      (∀ m, schema.minimum = some m → m ≤ n) →
      (∀ m, schema.maximum = some m → n ≤ m) →
      Conforms (.float n) schema
  | bool : ∀ (b : Bool) (schema : JSchema),
      (schema.type = none ∨ schema.type = some "boolean") →
      EnumOk (.bool b) schema →
      Conforms (.bool b) schema
  | obj : ∀ (fields : JObj) (schema : JSchema),
      (schema.type = none ∨ schema.type = some "object") →
      EnumOk (.obj fields) schema →
      (∀ k, k ∈ schema.required → fields.hasKey k = true) →
      (∀ k v s, (k, v) ∈ fields.toList → schema.properties.lookup k = some s → Conforms v s) →
      Conforms (.obj fields) schema
  | arr : ∀ (xs : JArr) (schema : JSchema),
      (schema.type = none ∨ schema.type = some "array") →
      EnumOk (.arr xs) schema →
      (∀ v, v ∈ xs.toList → ∀ s, schema.items = some s → Conforms v s) →
      Conforms (.arr xs) schema

/- ===================== Concrete instances used by witnesses ===================== -/

/-- The session key computed by `_process_system_message`:
`f"{origin_channel}:{origin_chat_id}"`. -/
def originKey (msg : InboundMessage) : String :=
  (parseOrigin msg.chat_id).1 ++ ":" ++ (parseOrigin msg.chat_id).2

/-- A schema with one declared string property `"a"`, required. -/
def probeSchema : JSchema :=
  .mk (some "object") none none none none none
    [("a", .mk (some "string") none none none none none [] [] none)] ["a"] none

/-- A concrete capability over `probeSchema` whose call succeeds. -/
def echoTool : Tool :=
  { name := "echo", description := "returns a fixed string", parameters := probeSchema,
    execute := fun _ => .ok "done" }

/-- A concrete capability over `probeSchema` whose call raises. -/
def boomTool : Tool :=
  { name := "boom", description := "always raises", parameters := probeSchema,
    execute := fun _ => .error "boom" }

/-- A schema declaring only the optional property `"a"` (nothing required). -/
def sniffSchema : JSchema :=
  .mk (some "object") none none none none none
    [("a", .mk (some "string") none none none none none [] [] none)] [] none

/-- A capability over `sniffSchema` whose result reveals whether the
undeclared key `"zz"` reached `execute`. -/
def sniffTool : Tool :=
  { name := "sniff", description := "reports whether key zz was forwarded",
    parameters := sniffSchema,
    execute := fun ps => .ok (if ps.hasKey "zz" then "saw extra" else "no extra") }

/-- Parameters for `sniffSchema` carrying the undeclared key `"zz"` with a
value that would fail any of the declared checks if it were recursed into. -/
def c10Params : JObj :=
  .cons "a" (.str "x") (.cons "zz" (.obj (.cons "junk" (.bool true) .nil)) .nil)

/-- An integer-typed property schema. -/
def intSchema : JSchema := .mk (some "integer") none none none none none [] [] none

/-- A schema exhibiting every violation category at once: a missing required
key, a type mismatch, an enum violation, a numeric-bound violation, a
string-length violation, a nested-object violation and an array-item
violation. -/
def c8Schema : JSchema :=
  .mk (some "object") none none none none none
    [("a", intSchema),
     ("c", .mk (some "string") (some [.str "low", .str "high"]) none none none none [] [] none),
     ("d", .mk (some "integer") none (some 5) none none none [] [] none),
     ("e", .mk (some "string") none none none (some 2) none [] [] none),
     ("f", .mk (some "object") none none none none none [("g", intSchema)] [] none),
     ("h", .mk (some "array") none none none none none [] [] (some intSchema))]
    ["b"] none

/-- Parameters violating every category of `c8Schema` simultaneously. -/
def c8Params : JObj :=
  .cons "a" (.str "x")
    (.cons "c" (.str "mid")
      (.cons "d" (.int 3)
        (.cons "e" (.str "x")
          (.cons "f" (.obj (.cons "g" (.str "bad") .nil))
            (.cons "h" (.arr (.cons (.int 1) (.cons (.str "no") .nil))) .nil)))))

/-- A capability over `c8Schema`. -/
def c8Tool : Tool :=
  { name := "c8probe", description := "multi-violation probe", parameters := c8Schema,
    execute := fun _ => .ok "" }

/-- A provider whose first response already carries no tool calls. -/
def cfgConst : AgentConfig :=
  { provider := fun _ => ⟨"all done", []⟩, tools := ⟨[]⟩, sysPrompt := "sys" }

/-- A provider every one of whose responses carries a tool call. -/
def cfgBusy : AgentConfig :=
  { provider := fun _ => ⟨"working", [⟨"call-1", "echo", .cons "a" (.str "hi") .nil⟩]⟩,
    tools := ⟨[("echo", echoTool)]⟩, sysPrompt := "sys" }

/-- A copy of `echoTool` differing only in its `execute` behaviour. -/
def echoVariantTool : Tool :=
  { name := "echo", description := "returns a fixed string", parameters := probeSchema,
    execute := fun _ => .ok "a different result" }

/- ===================== Helper lemmas ===================== -/

mutual
theorem pyEq_refl : ∀ v : JVal, pyEq v v = true
  | .str s => by simp [pyEq]
  | .int n => by simp [pyEq, numVal]
  | .float n => by simp [pyEq, numVal]
  | .bool b => by cases b <;> simp [pyEq, numVal]
  | .arr xs => by simpa [pyEq] using pyEqArr_refl xs
  | .obj fs => by simpa [pyEq] using pyEqObj_refl fs

theorem pyEqArr_refl : ∀ a : JArr, pyEqArr a a = true
  | .nil => rfl
  | .cons x xs => by
    simp only [pyEqArr, Bool.and_eq_true]
    exact ⟨pyEq_refl x, pyEqArr_refl xs⟩

theorem pyEqObj_refl : ∀ o : JObj, pyEqObj o o = true
  | .nil => rfl
  | .cons k v t => by
    simp only [pyEqObj, Bool.and_eq_true, beq_self_eq_true, true_and]
    exact ⟨pyEq_refl v, pyEqObj_refl t⟩
end

theorem setType_type (s : JSchema) (t : String) : (s.setType t).type = some t := by
  cases s; rfl

theorem setType_enum (s : JSchema) (t : String) : (s.setType t).enum = s.enum := by
  cases s; rfl

theorem setType_minimum (s : JSchema) (t : String) : (s.setType t).minimum = s.minimum := by
  cases s; rfl

theorem setType_maximum (s : JSchema) (t : String) : (s.setType t).maximum = s.maximum := by
  cases s; rfl

theorem setType_minLength (s : JSchema) (t : String) : (s.setType t).minLength = s.minLength := by
  cases s; rfl

theorem setType_maxLength (s : JSchema) (t : String) : (s.setType t).maxLength = s.maxLength := by
  cases s; rfl

theorem setType_properties (s : JSchema) (t : String) : (s.setType t).properties = s.properties := by
  cases s; rfl

theorem setType_required (s : JSchema) (t : String) : (s.setType t).required = s.required := by
  cases s; rfl

theorem setType_items (s : JSchema) (t : String) : (s.setType t).items = s.items := by
  cases s; rfl

theorem enumPart_eq_nil {val : JVal} {schema : JSchema} (h : EnumOk val schema) (label : String) :
    (match schema.enum with
     | some es => if es.any (pyEq val) then [] else [label ++ " must be one of " ++ reprPyList es]
     | none => ([] : List String)) = [] := by
  cases he : schema.enum with
  | none => rfl
  | some es =>
    have hmem : val ∈ es := h es he
    have : es.any (pyEq val) = true :=
      List.any_eq_true.mpr ⟨val, hmem, pyEq_refl val⟩
    simp [this]

theorem requiredErrors_eq_nil {fields : JObj} {req : List String} (path : String)
    (h : ∀ k, k ∈ req → fields.hasKey k = true) :
    requiredErrors fields req path = [] := by
  unfold requiredErrors
  rw [List.filterMap_eq_nil_iff]
  intro k hk
  simp [h k hk]

theorem validateEntries_eq_nil (props : List (String × JSchema)) (path : String) :
    ∀ fields : JObj,
      (∀ k v s, (k, v) ∈ fields.toList → props.lookup k = some s → ∀ p, validate v s p = []) →
      validateEntries fields props path = []
  | .nil, _ => rfl
  | .cons k v rest, h => by
    simp only [validateEntries]
    have hrest : validateEntries rest props path = [] :=
      validateEntries_eq_nil props path rest
        (fun k' v' s hm hl => h k' v' s (by simp [JObj.toList, hm]) hl)
    cases hl : props.lookup k with
    | none => simpa using hrest
    | some s =>
      have : validate v s (childPath path k) = [] :=
        h k v s (by simp [JObj.toList]) hl (childPath path k)
      simpa [this] using hrest

theorem validateItems_eq_nil (its : JSchema) (path : String) :
    ∀ xs : JArr,
      (∀ v, v ∈ xs.toList → ∀ p, validate v its p = []) →
      ∀ i, validateItems xs its path i = []
  | .nil, _, _ => rfl
  | .cons x rest, h, i => by
    simp only [validateItems]
    have hx : validate x its (indexPath path i) = [] :=
      h x (by simp [JArr.toList]) (indexPath path i)
    have hrest : validateItems rest its path (i + 1) = [] :=
      validateItems_eq_nil its path rest (fun v hm => h v (by simp [JArr.toList, hm])) (i + 1)
    simp [hx, hrest]

theorem validate_eq_nil_of_conforms {val : JVal} {schema : JSchema}
    (h : Conforms val schema) : ∀ path, validate val schema path = [] := by
  induction h with
  | str s schema htype henum hminl hmaxl =>
    rcases schema with ⟨t, e, mi, ma, mil, mal, props, req, its⟩
    intro path
    rcases htype with ht | ht <;> subst ht <;>
      rcases e with _ | es <;>
      [skip;
       (have hmem : es.any (pyEq (.str s)) = true :=
          List.any_eq_true.mpr ⟨_, henum es rfl, pyEq_refl _⟩);
       skip;
       (have hmem : es.any (pyEq (.str s)) = true :=
          List.any_eq_true.mpr ⟨_, henum es rfl, pyEq_refl _⟩)] <;>
      rcases mil with _ | nl <;> rcases mal with _ | nh <;>
      simp_all [validate, JSchema.type, JSchema.enum, JSchema.minimum, JSchema.maximum,
        JSchema.minLength, JSchema.maxLength, JSchema.properties, JSchema.required,
        JSchema.items, typeInMap, isinstanceOf, Nat.not_lt]
  | int n schema htype henum hmin hmax =>
    rcases schema with ⟨t, e, mi, ma, mil, mal, props, req, its⟩
    intro path
    have hmem : ∀ es, e = some es → (es.any (pyEq (.int n)) = true) := by
      intro es he
      exact List.any_eq_true.mpr ⟨_, henum es (by simp [JSchema.enum, he]), pyEq_refl _⟩
    rcases htype with ht | ht | ht <;> subst ht <;>
      rcases e with _ | es <;>
      rcases mi with _ | lo <;> rcases ma with _ | hi <;>
      simp_all [validate, JSchema.type, JSchema.enum, JSchema.minimum, JSchema.maximum,
        JSchema.minLength, JSchema.maxLength, JSchema.properties, JSchema.required,
        JSchema.items, typeInMap, isinstanceOf, numVal, Int.not_lt]
  | float n schema htype henum hmin hmax =>
    rcases schema with ⟨t, e, mi, ma, mil, mal, props, req, its⟩
    intro path
    have hmem : ∀ es, e = some es → (es.any (pyEq (.float n)) = true) := by
      intro es he
      exact List.any_eq_true.mpr ⟨_, henum es (by simp [JSchema.enum, he]), pyEq_refl _⟩
    rcases htype with ht | ht <;> subst ht <;>
      rcases e with _ | es <;>
      rcases mi with _ | lo <;> rcases ma with _ | hi <;>
      simp_all [validate, JSchema.type, JSchema.enum, JSchema.minimum, JSchema.maximum,
        JSchema.minLength, JSchema.maxLength, JSchema.properties, JSchema.required,
        JSchema.items, typeInMap, isinstanceOf, numVal, Int.not_lt]
  | bool b schema htype henum =>
    rcases schema with ⟨t, e, mi, ma, mil, mal, props, req, its⟩
    intro path
    have hmem : ∀ es, e = some es → (es.any (pyEq (.bool b)) = true) := by
      intro es he
      exact List.any_eq_true.mpr ⟨_, henum es (by simp [JSchema.enum, he]), pyEq_refl _⟩
    rcases htype with ht | ht <;> subst ht <;>
      rcases e with _ | es <;>
      simp_all [validate, JSchema.type, JSchema.enum, JSchema.minimum, JSchema.maximum,
        JSchema.minLength, JSchema.maxLength, JSchema.properties, JSchema.required,
        JSchema.items, typeInMap, isinstanceOf, numVal]
  | obj fields schema htype henum hreq hprops ih =>
    rcases schema with ⟨t, e, mi, ma, mil, mal, props, req, its⟩
    intro path
    have hent : ∀ p, validateEntries fields props p = [] := fun p =>
      validateEntries_eq_nil props p fields (fun k v s hm hl => ih k v s hm hl)
    have hreqnil : ∀ p, requiredErrors fields req p = [] := fun p =>
      requiredErrors_eq_nil p (fun k hk => hreq k hk)
    have hmem : ∀ es, e = some es → (es.any (pyEq (.obj fields)) = true) := by
      intro es he
      exact List.any_eq_true.mpr ⟨_, henum es (by simp [JSchema.enum, he]), pyEq_refl _⟩
    rcases htype with ht | ht <;> subst ht <;>
      rcases e with _ | es <;>
      simp_all [validate, JSchema.type, JSchema.enum, JSchema.minimum, JSchema.maximum,
        JSchema.minLength, JSchema.maxLength, JSchema.properties, JSchema.required,
        JSchema.items, typeInMap, isinstanceOf]
  | arr xs schema htype henum hitems ih =>
    rcases schema with ⟨t, e, mi, ma, mil, mal, props, req, its⟩
    intro path
    have hmem : ∀ es, e = some es → (es.any (pyEq (.arr xs)) = true) := by
      intro es he
      exact List.any_eq_true.mpr ⟨_, henum es (by simp [JSchema.enum, he]), pyEq_refl _⟩
    have hits : ∀ s, its = some s → ∀ p i, validateItems xs s p i = [] := by
      intro s hs p i
      exact validateItems_eq_nil s p xs (fun v hm q => ih v hm s (by simp [JSchema.items, hs]) q) i
    rcases htype with ht | ht <;> subst ht <;>
      rcases e with _ | es <;>
      rcases its with _ | s' <;>
      simp_all [validate, JSchema.type, JSchema.enum, JSchema.minimum, JSchema.maximum,
        JSchema.minLength, JSchema.maxLength, JSchema.properties, JSchema.required,
        JSchema.items, typeInMap, isinstanceOf]

/-- C7: for every parameter set satisfying a capability's schema,
`validate_params` returns an empty error list; and for every parameter set
missing a key listed in the schema's `required` array (with the root schema of
the object kind, so validation does not raise), the returned error list
contains the entry `"missing required <key>"` naming that key. -/
theorem validate_params_conforming_and_missing_required :
    ∀ (tool : Tool) (params : JObj),
      (Conforms (.obj params) tool.parameters → tool.validate_params params = .ok []) ∧
      (∀ k, tool.parameters.type.getD "object" = "object" →
        k ∈ tool.parameters.required → params.hasKey k = false →
        ∃ errs, tool.validate_params params = .ok errs ∧ ("missing required " ++ k) ∈ errs) := by
  intro tool params
  constructor
  · intro h
    cases h with
    | obj _ _ htype henum hreq hprops =>
      have hconf : Conforms (.obj params) (tool.parameters.setType "object") := by
        refine Conforms.obj _ _ (Or.inr (setType_type _ _)) ?_ ?_ ?_
        · intro es he
          exact henum es (by rwa [setType_enum] at he)
        · intro k hk
          exact hreq k (by rwa [setType_required] at hk)
        · intro k v s hm hl
          exact hprops k v s hm (by rwa [setType_properties] at hl)
      have hnil := validate_eq_nil_of_conforms hconf ""
      rcases htype with ht | ht <;> simp [Tool.validate_params, ht, hnil]
  · intro k hguard hk hmiss
    rcases htp : tool.parameters with ⟨t, e, mi, ma, mil, mal, props, req, its⟩
    rw [htp] at hguard hk
    simp only [JSchema.required] at hk
    refine ⟨validate (.obj params) ((JSchema.mk t e mi ma mil mal props req its).setType "object") "", ?_, ?_⟩
    · simp only [Tool.validate_params, htp]
      simp only [JSchema.type] at hguard ⊢
      simp [hguard]
    · have hmemreq : ("missing required " ++ k) ∈ requiredErrors params req "" := by
        refine List.mem_filterMap.mpr ⟨k, hk, ?_⟩
        simp [hmiss, childPath]
      simp only [JSchema.setType]
      simp [validate, JSchema.type, JSchema.enum, JSchema.minimum, JSchema.maximum,
        JSchema.minLength, JSchema.maxLength, JSchema.properties, JSchema.required,
        JSchema.items, typeInMap, isinstanceOf, List.mem_append, hmemreq]

/-- C7 witness: the conforming parameter set `{"a": "hi"}` for `echoTool`
validates cleanly, and the empty parameter set is reported as missing the
required key `"a"`. -/
theorem validate_params_conforming_and_missing_required_witness :
    echoTool.validate_params (.cons "a" (.str "hi") .nil) = .ok [] ∧
    ∃ errs, echoTool.validate_params .nil = .ok errs ∧ ("missing required " ++ "a") ∈ errs := by
  constructor
  · refine (validate_params_conforming_and_missing_required echoTool _).1 ?_
    refine Conforms.obj _ _ (Or.inr rfl) ?_ ?_ ?_
    · intro es he
      simp [echoTool, probeSchema, JSchema.enum] at he
    · intro k hk
      simp only [echoTool, probeSchema, JSchema.required] at hk
      simp only [List.mem_singleton] at hk
      subst hk
      decide
    · intro k v s hm hl
      simp only [JObj.toList, List.mem_singleton] at hm
      have hk : k = "a" := congrArg Prod.fst hm
      have hv : v = .str "hi" := congrArg Prod.snd hm
      subst hk; subst hv
      simp only [echoTool, probeSchema, JSchema.properties, List.lookup] at hl
      simp only [beq_self_eq_true, if_pos] at hl
      cases hl
      refine Conforms.str _ _ (Or.inr rfl) ?_ ?_ ?_
      · intro es he
        simp [JSchema.enum] at he
      · intro n hn
        simp [JSchema.minLength] at hn
      · intro n hn
        simp [JSchema.maxLength] at hn
  · exact (validate_params_conforming_and_missing_required echoTool .nil).2 "a"
      (by decide) (by decide) (by decide)

/-- C1: `ToolRegistry.execute` is a total function into `String` (it never
raises); an unregistered name yields the error string
`"Error: Tool '<name>' not found"`, which contains the name, without any
capability being consulted; a non-empty validation error list yields the
single concatenated error string and the capability is not called (the result
is the same for any two tools that share a parameter schema but differ in
their `execute`, as the third conjunct states); a `ValueError` raised by
validation and any exception raised by the capability itself are converted
into the string `"Error executing <name>: <message>"`. -/
theorem registry_execute_error_containment :
    ∀ (reg : ToolRegistry) (name : String) (params : JObj),
      (reg.tools.lookup name = none →
        ToolRegistry.execute reg name params = "Error: Tool '" ++ name ++ "' not found") ∧
      (∀ tool errs, reg.tools.lookup name = some tool →
        tool.validate_params params = .ok errs → errs ≠ [] →
        ToolRegistry.execute reg name params =
          "Error: Invalid parameters for tool '" ++ name ++ "': " ++
            String.intercalate "; " errs) ∧
      (∀ t₁ t₂ : Tool, t₁.parameters = t₂.parameters →
        ∀ errs, t₁.validate_params params = .ok errs → errs ≠ [] →
          ToolRegistry.execute ⟨[(name, t₁)]⟩ name params =
            ToolRegistry.execute ⟨[(name, t₂)]⟩ name params) ∧
      (∀ tool e, reg.tools.lookup name = some tool →
        tool.validate_params params = .error e →
        ToolRegistry.execute reg name params = "Error executing " ++ name ++ ": " ++ e) ∧
      (∀ tool e, reg.tools.lookup name = some tool →
        tool.validate_params params = .ok [] → tool.execute params = .error e →
        ToolRegistry.execute reg name params = "Error executing " ++ name ++ ": " ++ e) := by
  intro reg name params
  refine ⟨?_, ?_, ?_, ?_, ?_⟩
  · intro h
    simp [ToolRegistry.execute, h]
  · intro tool errs hlk hval hne
    cases errs with
    | nil => exact absurd rfl hne
    | cons a t => simp [ToolRegistry.execute, hlk, hval]
  · intro t₁ t₂ hpar errs hval hne
    have hval₂ : t₂.validate_params params = .ok errs := by
      simp only [Tool.validate_params] at hval ⊢
      rw [← hpar]
      exact hval
    cases errs with
    | nil => exact absurd rfl hne
    | cons a t => simp [ToolRegistry.execute, List.lookup, hval, hval₂]
  · intro tool e hlk hval
    simp [ToolRegistry.execute, hlk, hval]
  · intro tool e hlk hval hexec
    simp [ToolRegistry.execute, hlk, hval, hexec]

/-- C1 witness: the unknown name `"ghost"` yields its not-found string; the
empty parameter set for `echoTool` yields the concatenated validation error
without the capability mattering (swapping in `echoVariantTool` leaves the
result unchanged); `boomTool`'s raised exception is converted to an error
string. -/
theorem registry_execute_error_containment_witness :
    ToolRegistry.execute ⟨[]⟩ "ghost" .nil = "Error: Tool '" ++ "ghost" ++ "' not found" ∧
    ToolRegistry.execute ⟨[("echo", echoTool)]⟩ "echo" .nil =
      "Error: Invalid parameters for tool '" ++ "echo" ++ "': " ++
        String.intercalate "; " ["missing required a"] ∧
    ToolRegistry.execute ⟨[("echo", echoTool)]⟩ "echo" .nil =
      ToolRegistry.execute ⟨[("echo", echoVariantTool)]⟩ "echo" .nil ∧
    ToolRegistry.execute ⟨[("boom", boomTool)]⟩ "boom" (.cons "a" (.str "x") .nil) =
      "Error executing " ++ "boom" ++ ": " ++ "boom" := by
  refine ⟨?_, ?_, ?_, ?_⟩
  · exact (registry_execute_error_containment ⟨[]⟩ "ghost" .nil).1 rfl
  · exact (registry_execute_error_containment ⟨[("echo", echoTool)]⟩ "echo" .nil).2.1
      echoTool ["missing required a"] rfl rfl (by decide)
  · exact (registry_execute_error_containment ⟨[("echo", echoTool)]⟩ "echo" .nil).2.2.1
      echoTool echoVariantTool rfl ["missing required a"] rfl (by decide)
  · exact (registry_execute_error_containment ⟨[("boom", boomTool)]⟩ "boom"
      (.cons "a" (.str "x") .nil)).2.2.2.2 boomTool "boom" rfl rfl rfl

theorem validateEntries_bind :
    ∀ (fields : JObj) (props : List (String × JSchema)) (path : String),
      validateEntries fields props path =
        fields.toList.flatMap (fun kv =>
          match props.lookup kv.1 with
          | some s => validate kv.2 s (childPath path kv.1)
          | none => [])
  | .nil, _, _ => rfl
  | .cons k v rest, props, path => by
    simp only [validateEntries, JObj.toList, List.flatMap_cons]
    rw [validateEntries_bind rest props path]

theorem validateItems_bind :
    ∀ (xs : JArr) (its : JSchema) (path : String) (i : Nat),
      validateItems xs its path i =
        (List.enumFrom i xs.toList).flatMap (fun p => validate p.2 its (indexPath path p.1))
  | .nil, _, _, _ => rfl
  | .cons x rest, its, path, i => by
    simp only [validateItems, JArr.toList, List.enumFrom, List.flatMap_cons]
    rw [validateItems_bind rest its path (i + 1)]

/-- C8: the validator does not fail fast: an object's entry errors are the
concatenation, in dict order, of every declared entry's errors, and an
array's item errors the concatenation of every item's errors — so one call
reports the violations of all entries and items together; concretely, a
single `validate_params` call on `c8Params` reports one entry for each of the
seven violations present (a missing required key, a type mismatch, an enum
violation, a numeric-bound violation, a string-length violation, a violation
inside a nested object property and a violation at an array item). A type
mismatch at one value yields that value's single `should be` error without
stopping the validation of sibling values. -/
theorem validator_accumulates_all_violations :
    (∀ (fields : JObj) (props : List (String × JSchema)) (path : String),
      validateEntries fields props path =
        fields.toList.flatMap (fun kv =>
          match props.lookup kv.1 with
          | some s => validate kv.2 s (childPath path kv.1)
          | none => [])) ∧
    (∀ (xs : JArr) (its : JSchema) (path : String) (i : Nat),
      validateItems xs its path i =
        (List.enumFrom i xs.toList).flatMap (fun p => validate p.2 its (indexPath path p.1))) ∧
    c8Tool.validate_params c8Params =
      .ok ["missing required b", "a should be integer",
           "c must be one of ['low', 'high']", "d must be >= 5",
           "e must be at least 2 chars", "f.g should be integer",
           "h[1] should be integer"] :=
  ⟨validateEntries_bind, validateItems_bind, rfl⟩

/-- C10: keys absent from the schema's `properties` produce no validation
error and are not recursed into (an undeclared entry contributes nothing,
whatever value it carries), a parameter set with extra keys therefore passes
validation, and the full parameter dict — extras included — is what
`ToolRegistry.execute` forwards to the capability's `execute`; concretely,
`sniffTool` observes the undeclared key `"zz"` of `c10Params`. -/
theorem undeclared_keys_ignored_and_forwarded :
    (∀ (k : String) (v : JVal) (rest : JObj) (props : List (String × JSchema)) (path : String),
      props.lookup k = none →
      validateEntries (.cons k v rest) props path = validateEntries rest props path) ∧
    (∀ (reg : ToolRegistry) (name : String) (tool : Tool) (params : JObj),
      reg.tools.lookup name = some tool → tool.validate_params params = .ok [] →
      ToolRegistry.execute reg name params =
        (match tool.execute params with
         | .ok r => r
         | .error e => "Error executing " ++ name ++ ": " ++ e)) ∧
    sniffTool.validate_params c10Params = .ok [] ∧
    ToolRegistry.execute ⟨[("sniff", sniffTool)]⟩ "sniff" c10Params = "saw extra" := by
  refine ⟨?_, ?_, rfl, rfl⟩
  · intro k v rest props path h
    simp [validateEntries, h]
  · intro reg name tool params hlk hval
    cases hex : tool.execute params <;> simp [ToolRegistry.execute, hlk, hval, hex]

/-- C10 witness: the undeclared entry `"zz"` (with a junk value) contributes
no error over a schema declaring only `"a"`, and the registry's result on
`c10Params` is exactly the capability's own result on the full dict. -/
theorem undeclared_keys_ignored_and_forwarded_witness :
    validateEntries (.cons "zz" (.obj (.cons "junk" (.bool true) .nil)) .nil)
        [("a", .mk (some "string") none none none none none [] [] none)] "" =
      validateEntries .nil
        [("a", .mk (some "string") none none none none none [] [] none)] "" ∧
    ToolRegistry.execute ⟨[("sniff", sniffTool)]⟩ "sniff" c10Params =
      (match sniffTool.execute c10Params with
       | .ok r => r
       | .error e => "Error executing " ++ "sniff" ++ ": " ++ e) := by
  constructor
  · exact undeclared_keys_ignored_and_forwarded.1 "zz" _ .nil _ "" rfl
  · exact undeclared_keys_ignored_and_forwarded.2.1 _ "sniff" sniffTool c10Params rfl rfl

theorem execAllToolCalls_eq_append (reg : ToolRegistry) (tcs : List ToolCall) :
    ∀ messages, execAllToolCalls reg messages tcs =
      messages ++ tcs.map (fun tc =>
        { role := "tool", content := reg.execute tc.name tc.arguments,
          tool_call_id := tc.id, name := tc.name }) := by
  induction tcs with
  | nil => intro messages; simp [execAllToolCalls]
  | cons tc rest ih =>
    intro messages
    simp only [execAllToolCalls, List.foldl_cons, List.map_cons] at *
    rw [ih]
    simp [addToolResultMsg]

/-- C3: in one iteration of the agent loop, a model response carrying `N`
tool calls makes the message list gain exactly one assistant turn recording
the tool-call payload followed by exactly `N` tool-result turns, in the same
order as the model returned the calls and produced by executing them one
after the other, before the next model call; the list grows by exactly
`1 + N` turns. -/
theorem loop_tool_turns_interleaved :
    ∀ (p : Nat → ModelResponse) (reg : ToolRegistry) (it rem : Nat) (msgs : List Msg),
      (p it).has_tool_calls = true →
      (agentLoopGo p reg it (rem + 1) msgs =
        agentLoopGo p reg (it + 1) rem
          (msgs ++
            ({ role := "assistant", content := (p it).content,
               tool_calls := toolCallDicts (p it).tool_calls } : Msg) ::
            (p it).tool_calls.map (fun tc =>
              { role := "tool", content := reg.execute tc.name tc.arguments,
                tool_call_id := tc.id, name := tc.name }))) ∧
      (msgs ++
        ({ role := "assistant", content := (p it).content,
           tool_calls := toolCallDicts (p it).tool_calls } : Msg) ::
        (p it).tool_calls.map (fun tc =>
          { role := "tool", content := reg.execute tc.name tc.arguments,
            tool_call_id := tc.id, name := tc.name })).length =
        msgs.length + 1 + (p it).tool_calls.length := by
  intro p reg it rem msgs h
  constructor
  · simp only [agentLoopGo, h, if_true]
    rw [execAllToolCalls_eq_append]
    simp [addAssistantMsg]
  · simp [List.length_append, List.length_map]
    omega

/-- C3 witness: with a two-tool-call response the list gains the assistant
turn and both tool turns, in order, before the next call. -/
theorem loop_tool_turns_interleaved_witness :
    agentLoopGo cfgBusy.provider cfgBusy.tools 0 1 [] =
      agentLoopGo cfgBusy.provider cfgBusy.tools 1 0
        ([] ++
          ({ role := "assistant", content := (cfgBusy.provider 0).content,
             tool_calls := toolCallDicts (cfgBusy.provider 0).tool_calls } : Msg) ::
          (cfgBusy.provider 0).tool_calls.map (fun tc =>
            { role := "tool", content := ToolRegistry.execute cfgBusy.tools tc.name tc.arguments,
              tool_call_id := tc.id, name := tc.name })) :=
  (loop_tool_turns_interleaved cfgBusy.provider cfgBusy.tools 0 0 [] rfl).1

theorem agentLoopGo_calls_le (p : Nat → ModelResponse) (reg : ToolRegistry) :
    ∀ (rem it : Nat) (msgs : List Msg), (agentLoopGo p reg it rem msgs).2.2 ≤ it + rem
  | 0, it, msgs => by simp [agentLoopGo]
  | rem + 1, it, msgs => by
    cases h : (p it).has_tool_calls with
    | false => simp [agentLoopGo, h]
    | true =>
      simp only [agentLoopGo, h, if_true]
      exact le_trans (agentLoopGo_calls_le p reg rem (it + 1) _) (by omega)

theorem agentLoopGo_none_of_busy (p : Nat → ModelResponse) (reg : ToolRegistry) :
    ∀ (rem it : Nat) (msgs : List Msg),
      (∀ i, i < it + rem → (p i).has_tool_calls = true) →
      (agentLoopGo p reg it rem msgs).2.1 = none
  | 0, it, msgs, _ => by simp [agentLoopGo]
  | rem + 1, it, msgs, h => by
    have hit : (p it).has_tool_calls = true := h it (by omega)
    simp only [agentLoopGo, hit, if_true]
    exact agentLoopGo_none_of_busy p reg rem (it + 1) _ (fun i hi => h i (by omega))

theorem subagentLoopGo_calls_le (p : Nat → Except String ModelResponse) (reg : ToolRegistry) :
    ∀ (rem it : Nat) (msgs : List Msg) res,
      subagentLoopGo p reg it rem msgs = .ok res → res.2.2 ≤ it + rem
  | 0, it, msgs, res, h => by
    simp only [subagentLoopGo] at h
    cases h
    simp
  | rem + 1, it, msgs, res, h => by
    rw [subagentLoopGo] at h
    cases hp : p it with
    | error e =>
      simp only [hp] at h
      cases h
    | ok response =>
      cases htc : response.has_tool_calls with
      | false =>
        simp only [hp, htc, Bool.false_eq_true, if_false] at h
        cases h
        simp
      | true =>
        simp only [hp, htc, if_true] at h
        exact le_trans (subagentLoopGo_calls_le p reg rem (it + 1) _ res h) (by omega)

theorem subagentLoopGo_busy (p : Nat → Except String ModelResponse) (reg : ToolRegistry) :
    ∀ (rem it : Nat) (msgs : List Msg),
      (∀ i, i < it + rem → ∃ r, p i = .ok r ∧ r.has_tool_calls = true) →
      ∃ m, subagentLoopGo p reg it rem msgs = .ok (m, none, it + rem)
  | 0, it, msgs, _ => ⟨msgs, by simp [subagentLoopGo]⟩
  | rem + 1, it, msgs, h => by
    obtain ⟨r, hp, htc⟩ := h it (by omega)
    obtain ⟨m, hm⟩ := subagentLoopGo_busy p reg rem (it + 1)
      (execAllToolCalls reg (addAssistantMsg msgs r.content (toolCallDicts r.tool_calls)) r.tool_calls)
      (fun i hi => h i (by omega))
    refine ⟨m, ?_⟩
    rw [subagentLoopGo]
    simp only [hp, htc, if_true]
    have harith : it + 1 + rem = it + (rem + 1) := by omega
    rw [harith] at hm
    exact hm

/-- C2: processing one inbound message makes at most `max_iterations` model
calls (on both the direct and the system-message paths); the main loop's
constructor default is 20 and the subagent loop is capped at 15; exhausting
the main budget without a tool-call-free response terminates with the fixed
fallback string as the final answer (no exception — `processMessage` is
total); a subagent run whose 15 responses all carry tool calls likewise ends
with its fixed fallback result announced normally. -/
theorem loop_bounded_iterations_and_fallback :
    (∀ (cfg : AgentConfig) (sessions : Sessions) (msg : InboundMessage),
      (processMessage cfg sessions msg).2.2 ≤ cfg.max_iterations) ∧
    (∀ (p : Nat → ModelResponse) (t : ToolRegistry) (s : String),
      ({ provider := p, tools := t, sysPrompt := s } : AgentConfig).max_iterations = 20) ∧
    mainLoopDefaultMaxIterations = 20 ∧
    subagentMaxIterations = 15 ∧
    (∀ (cfg : AgentConfig) (sessions : Sessions) (msg : InboundMessage),
      msg.channel ≠ "system" →
      (∀ i, i < cfg.max_iterations → (cfg.provider i).has_tool_calls = true) →
      (processMessage cfg sessions msg).2.1.content =
        "I've completed processing but have no response to give.") ∧
    (∀ (p : Nat → Except String ModelResponse) (reg : ToolRegistry) (msgs : List Msg) res,
      subagentLoopGo p reg 0 subagentMaxIterations msgs = .ok res →
      res.2.2 ≤ subagentMaxIterations) ∧
    (∀ (p : Nat → Except String ModelResponse) (reg : ToolRegistry)
       (tid task lab : String) (origin : String × String) (ws : String),
      (∀ i, i < subagentMaxIterations → ∃ r, p i = .ok r ∧ r.has_tool_calls = true) →
      runSubagent p reg tid task lab origin ws =
        [announceResult tid lab task
          "Task completed but no final response was generated." origin "ok"]) := by
  refine ⟨?_, fun p t s => rfl, rfl, rfl, ?_, ?_, ?_⟩
  · intro cfg sessions msg
    by_cases h : msg.channel = "system" <;>
      simpa [processMessage, processSystemMessage, h] using
        agentLoopGo_calls_le cfg.provider cfg.tools cfg.max_iterations 0 _
  · intro cfg sessions msg hch hbusy
    have hnone := agentLoopGo_none_of_busy cfg.provider cfg.tools cfg.max_iterations 0
      (buildMessages cfg.sysPrompt
        (historyMsgs (getOrCreate sessions msg.session_key)) msg.content)
      (fun i hi => hbusy i (by omega))
    simp [processMessage, hch, hnone]
  · intro p reg msgs res h
    simpa using subagentLoopGo_calls_le p reg subagentMaxIterations 0 msgs res h
  · intro p reg tid task lab origin ws hbusy
    obtain ⟨m, hm⟩ := subagentLoopGo_busy p reg subagentMaxIterations 0
      [{ role := "system", content := buildSubagentPrompt task ws },
       { role := "user", content := task }]
      (fun i hi => hbusy i (by omega))
    simp [runSubagent, hm]

/-- C2 witness: with a provider that always calls tools, the direct message
makes at most the default 20 calls and ends in the fixed fallback answer, and
a 15-round busy subagent announces its fixed fallback result. -/
theorem loop_bounded_iterations_and_fallback_witness :
    (processMessage cfgBusy [] { channel := "cli", sender_id := "user", chat_id := "direct", content := "hi" }).2.2 ≤ cfgBusy.max_iterations ∧
    (processMessage cfgBusy [] { channel := "cli", sender_id := "user", chat_id := "direct", content := "hi" }).2.1.content =
      "I've completed processing but have no response to give." ∧
    runSubagent (fun _ => .ok ⟨"working", [⟨"call-1", "echo", .cons "a" (.str "hi") .nil⟩]⟩)
        ⟨[("echo", echoTool)]⟩ "id1" "task" "lab" ("cli", "direct") "ws" =
      [announceResult "id1" "lab" "task"
        "Task completed but no final response was generated." ("cli", "direct") "ok"] :=
  ⟨loop_bounded_iterations_and_fallback.1 cfgBusy [] _,
   loop_bounded_iterations_and_fallback.2.2.2.2.1 cfgBusy [] _ (by decide) (fun i _ => rfl),
   loop_bounded_iterations_and_fallback.2.2.2.2.2.2
     (fun _ => .ok ⟨"working", [⟨"call-1", "echo", .cons "a" (.str "hi") .nil⟩]⟩)
     ⟨[("echo", echoTool)]⟩ "id1" "task" "lab" ("cli", "direct") "ws"
     (fun i _ => ⟨_, rfl, rfl⟩)⟩

/-- C5: whenever the model's first response carries no tool calls, the loop
terminates at once: exactly one model call is made and the single outbound
message carries the model's literal content, addressed to the message's own
channel and chat id. -/
theorem tool_free_first_response_is_final :
    ∀ (cfg : AgentConfig) (sessions : Sessions) (msg : InboundMessage),
      msg.channel ≠ "system" → 1 ≤ cfg.max_iterations →
      (cfg.provider 0).has_tool_calls = false →
      (processMessage cfg sessions msg).2.1 =
        ⟨msg.channel, msg.chat_id, (cfg.provider 0).content⟩ ∧
      (processMessage cfg sessions msg).2.2 = 1 := by
  intro cfg sessions msg hch hmax h0
  obtain ⟨n, hn⟩ : ∃ n, cfg.max_iterations = n + 1 := ⟨cfg.max_iterations - 1, by omega⟩
  constructor <;> simp [processMessage, hch, hn, agentLoopGo, h0]

/-- C5 witness: the `2+2?` scenario — a tool-call-free first response yields
one outbound message with the model's literal content after exactly one model
call. -/
theorem tool_free_first_response_is_final_witness :
    (processMessage cfgConst [] { channel := "cli", sender_id := "user", chat_id := "direct", content := "2+2?" }).2.1 = ⟨"cli", "direct", "all done"⟩ ∧
    (processMessage cfgConst [] { channel := "cli", sender_id := "user", chat_id := "direct", content := "2+2?" }).2.2 = 1 :=
  tool_free_first_response_is_final cfgConst []
    { channel := "cli", sender_id := "user", chat_id := "direct", content := "2+2?" }
    (by decide) (by decide) rfl

theorem lookup_append_singleton (key k : String) (log : List (String × String))
    (hk : k ≠ key) :
    ∀ l : Sessions, (l ++ [(key, log)]).lookup k = l.lookup k
  | [] => by
    have hf : (k == key) = false := by simp [hk]
    simp [List.lookup, hf]
  | (a, b) :: rest => by
    simp only [List.cons_append, List.lookup]
    cases hab : (k == a)
    · simp only [hab]
      exact lookup_append_singleton key k log hk rest
    · simp [hab]

theorem lookup_map_overwrite (key k : String) (log : List (String × String))
    (hk : k ≠ key) :
    ∀ sessions : Sessions,
      (sessions.map fun kv => if kv.1 = key then (key, log) else kv).lookup k =
        sessions.lookup k
  | [] => rfl
  | (a, b) :: rest => by
    simp only [List.map_cons]
    by_cases ha : a = key
    · have hhead : (if (a, b).1 = key then (key, log) else (a, b)) = (key, log) := by
        simp [ha]
      have hfk : (k == key) = false := by simp [hk]
      have hfa : (k == a) = false := by simp [ha, hk]
      rw [hhead]
      simp only [List.lookup, hfk, hfa]
      exact lookup_map_overwrite key k log hk rest
    · have hhead : (if (a, b).1 = key then (key, log) else (a, b)) = (a, b) := by
        simp [ha]
      rw [hhead]
      simp only [List.lookup]
      cases hab : (k == a) <;> simp [hab, lookup_map_overwrite key k log hk rest]

theorem saveSession_lookup_ne (sessions : Sessions) (key : String)
    (log : List (String × String)) (k : String) (hk : k ≠ key) :
    (saveSession sessions key log).lookup k = sessions.lookup k := by
  unfold saveSession
  by_cases h : sessions.lookup key = none
  · rw [if_pos h]
    exact lookup_append_singleton key k log hk sessions
  · rw [if_neg h]
    exact lookup_map_overwrite key k log hk sessions

/-- C4 (amended): every inbound message with channel `"system"` is redirected
to the system-message variant, which splits `chat_id` at the first colon into
`origin_channel:origin_chat_id`, uses the session keyed by that origin pair
instead of the message's own (the reply depends on the stored origin-keyed
log alone, and only the origin key's entry of the store is updated), and
addresses the outbound message to the origin pair — a system message with
`chat_id = "telegram:42"` is answered on channel `"telegram"`, chat `"42"`,
not on the system channel; when `chat_id` contains no separator, the default
channel `"cli"` is used together with the message's own `chat_id` as the
fallback origin pair (not a fixed default id). -/
theorem system_message_routed_to_origin :
    ∀ (cfg : AgentConfig) (sessions : Sessions) (msg : InboundMessage),
      msg.channel = "system" →
      (processMessage cfg sessions msg = processSystemMessage cfg sessions msg) ∧
      (∀ a b, breakAtColon msg.chat_id.toList = some (a, b) →
        (processMessage cfg sessions msg).2.1.channel = String.mk a ∧
        (processMessage cfg sessions msg).2.1.chat_id = String.mk b) ∧
      (msg.chat_id = "telegram:42" →
        (processMessage cfg sessions msg).2.1.channel = "telegram" ∧
        (processMessage cfg sessions msg).2.1.chat_id = "42") ∧
      (breakAtColon msg.chat_id.toList = none →
        (processMessage cfg sessions msg).2.1.channel = "cli" ∧
        (processMessage cfg sessions msg).2.1.chat_id = msg.chat_id) ∧
      (∀ sessions' : Sessions,
        getOrCreate sessions (originKey msg) = getOrCreate sessions' (originKey msg) →
        (processMessage cfg sessions msg).2.1 = (processMessage cfg sessions' msg).2.1) ∧
      (∀ k, k ≠ originKey msg →
        (processMessage cfg sessions msg).1.lookup k = sessions.lookup k) := by
  intro cfg sessions msg hsys
  refine ⟨by simp [processMessage, hsys], ?_, ?_, ?_, ?_, ?_⟩
  · intro a b hab
    have hab' : breakAtColon msg.chat_id.data = some (a, b) := hab
    constructor <;> simp [processMessage, processSystemMessage, hsys, parseOrigin, hab']
  · intro h42
    have hab : breakAtColon msg.chat_id.toList = some ("telegram".toList, "42".toList) := by
      rw [h42]; decide
    have hab' : breakAtColon msg.chat_id.data = some ("telegram".toList, "42".toList) := hab
    constructor <;>
      simp [processMessage, processSystemMessage, hsys, parseOrigin, hab']
  · intro hnone
    have hnone' : breakAtColon msg.chat_id.data = none := hnone
    constructor <;> simp [processMessage, processSystemMessage, hsys, parseOrigin, hnone']
  · intro sessions' heq
    simp only [processMessage, hsys, if_pos, processSystemMessage]
    simp only [originKey] at heq
    rw [heq]
  · intro k hk
    simp only [processMessage, hsys, if_pos, processSystemMessage]
    exact saveSession_lookup_ne sessions _ _ k (by simpa [originKey] using hk)

/-- C4 witness: a concrete `"system"` message with `chat_id = "telegram:42"`
is answered on channel `"telegram"`, chat `"42"`, and one with the
separator-free `chat_id = "42"` falls back to channel `"cli"` with chat
`"42"`. -/
theorem system_message_routed_to_origin_witness :
    (processMessage cfgConst [] { channel := "system", sender_id := "subagent", chat_id := "telegram:42", content := "done" }).2.1.channel = "telegram" ∧
    (processMessage cfgConst [] { channel := "system", sender_id := "subagent", chat_id := "telegram:42", content := "done" }).2.1.chat_id = "42" ∧
    (processMessage cfgConst [] { channel := "system", sender_id := "subagent", chat_id := "42", content := "done" }).2.1.channel = "cli" ∧
    (processMessage cfgConst [] { channel := "system", sender_id := "subagent", chat_id := "42", content := "done" }).2.1.chat_id = "42" := by
  have h1 := (system_message_routed_to_origin cfgConst []
    { channel := "system", sender_id := "subagent", chat_id := "telegram:42", content := "done" }
    rfl).2.2.1 rfl
  have h2 := (system_message_routed_to_origin cfgConst []
    { channel := "system", sender_id := "subagent", chat_id := "42", content := "done" }
    rfl).2.2.2.1 (by decide)
  exact ⟨h1.1, h1.2, h2.1, h2.2⟩

/-- C4 counterexample: the claim's fallback clause — that a `"system"` message
whose `chat_id` has no separator is routed to one fixed default channel/id
pair — is false: the origin id is the message's own `chat_id`, so the
answered chat differs between inputs `"42"` and `"43"` and no fixed pair
exists. -/
theorem system_fallback_not_a_fixed_pair :
    ¬ ∃ (c i : String), ∀ (cfg : AgentConfig) (sessions : Sessions) (msg : InboundMessage),
        msg.channel = "system" → breakAtColon msg.chat_id.toList = none →
        (processMessage cfg sessions msg).2.1.channel = c ∧
        (processMessage cfg sessions msg).2.1.chat_id = i := by
  rintro ⟨c, i, h⟩
  have h42 := (h cfgConst [] { channel := "system", sender_id := "subagent", chat_id := "42", content := "x" } rfl (by decide)).2
  have h43 := (h cfgConst [] { channel := "system", sender_id := "subagent", chat_id := "43", content := "x" } rfl (by decide)).2
  have e42 : (processMessage cfgConst [] { channel := "system", sender_id := "subagent", chat_id := "42", content := "x" }).2.1.chat_id = "42" := by decide
  have e43 : (processMessage cfgConst [] { channel := "system", sender_id := "subagent", chat_id := "43", content := "x" }).2.1.chat_id = "43" := by decide
  rw [e42] at h42
  rw [e43] at h43
  have : ("42" : String) = "43" := h42.trans h43.symm
  exact absurd this (by decide)

/-- C6: `spawn` returns the acknowledgement string at once — the string is
determined by the task, label and task id alone, identically for every
provider behaviour, so it cannot wait on the background task — and the
background task, on completion, publishes exactly one inbound message on the
bus, whose channel is `"system"` and whose `chat_id` equals
`"{origin.channel}:{origin.chat_id}"` of the spawn call, whether the subagent
loop succeeded or raised an exception. -/
theorem spawn_ack_and_single_system_announcement :
    ∀ (p : Nat → Except String ModelResponse) (reg : ToolRegistry) (task : String)
      (label : Option String) (origin : String × String) (task_id workspace : String),
      (spawn p reg task label origin task_id workspace).1 =
        "Subagent [" ++ displayLabel label task ++ "] started (id: " ++ task_id ++
          "). I'll notify you when it completes." ∧
      (∀ q, (spawn p reg task label origin task_id workspace).1 =
        (spawn q reg task label origin task_id workspace).1) ∧
      (spawn p reg task label origin task_id workspace).2.map
          (fun m => (m.channel, m.chat_id)) =
        [("system", origin.1 ++ ":" ++ origin.2)] := by
  intro p reg task label origin task_id ws
  refine ⟨rfl, fun q => rfl, ?_⟩
  simp only [spawn, runSubagent]
  cases subagentLoopGo p reg 0 subagentMaxIterations _ <;> simp [announceResult]

/-- C9: the done callback removes the task id from the live set ignoring the
task's outcome — success, a raised loop and a failed announcement remove
alike; a spawn immediately followed by a crash leaves the registry exactly as
before (no dangling entry); under the key uniqueness a Python dict and fresh
uuid ids provide, the finished id is gone from the set and
`get_running_count` drops by exactly one, so it counts only unfinished
tasks. -/
theorem task_removed_on_completion_unconditionally :
    ∀ (running : List String) (task_id : String) (o o' : SubagentOutcome),
      doneCallback running task_id o = doneCallback running task_id o' ∧
      (task_id ∉ running →
        doneCallback (registerTask running task_id) task_id o = running) ∧
      (running.Nodup → task_id ∉ doneCallback running task_id o) ∧
      (task_id ∈ running →
        get_running_count (doneCallback running task_id o) + 1 =
          get_running_count running) ∧
      get_running_count (registerTask running task_id) = get_running_count running + 1 := by
  intro running task_id o o'
  refine ⟨rfl, ?_, ?_, ?_, by simp [get_running_count, registerTask]⟩
  · intro h
    simp [doneCallback, registerTask, List.erase_append_right _ h, List.erase_cons_head]
  · intro hnd hmem
    exact absurd ((List.Nodup.mem_erase_iff hnd).mp hmem).1 (by simp)
  · intro hmem
    have hlen := List.length_erase_of_mem hmem
    have hpos := List.length_pos_of_mem hmem
    simp only [doneCallback, get_running_count, hlen]
    omega

/-- C9 witness: completing task `"b2"` with a success, a raised exception or
a failed announcement removes it alike; a register-then-crash sequence
leaves the set unchanged, and the running count drops by one. -/
theorem task_removed_on_completion_unconditionally_witness :
    doneCallback ["a1", "b2"] "b2" .succeeded =
      doneCallback ["a1", "b2"] "b2" (.raised "boom") ∧
    doneCallback (registerTask ["a1"] "b2") "b2" (.announceRaised "publish failed") =
      ["a1"] ∧
    "b2" ∉ doneCallback ["a1", "b2"] "b2" (.raised "boom") ∧
    get_running_count (doneCallback ["a1", "b2"] "b2" .succeeded) + 1 =
      get_running_count ["a1", "b2"] :=
  ⟨(task_removed_on_completion_unconditionally ["a1", "b2"] "b2" .succeeded
      (.raised "boom")).1,
   (task_removed_on_completion_unconditionally ["a1"] "b2"
      (.announceRaised "publish failed") .succeeded).2.1 (by decide),
   (task_removed_on_completion_unconditionally ["a1", "b2"] "b2"
      (.raised "boom") .succeeded).2.2.1 (by decide),
   (task_removed_on_completion_unconditionally ["a1", "b2"] "b2" .succeeded
      .succeeded).2.2.2.1 (by decide)⟩
